import Mathlib

/-!
Shallow embedding of the multiplayer-client reconciliation and presentation
core found in `src/game.js` (class `GameClient`), together with proofs of the
specification's testable properties.

Modelling conventions:
* JavaScript numbers are embedded as `ℚ` (world coordinates, milliseconds).
* A JavaScript object used as a keyed map (`this.players`, `this.avatars`)
  and the `Map` `this.playerRenderState` are embedded as association lists
  (`Store`), with `storeGet` / `storeSet` / `storeDel` mirroring property
  read, property write and `delete` / `Map.delete`.
* A player record received from the server may lack fields (a movement batch
  may carry only positional fields); such fields are `Option`-valued.
  Positions `x`, `y` are always carried, so they stay bare.
* Only the state-bearing core is embedded: drawing calls, image decoding and
  the WebSocket transport are outside the model, exactly as the spec excludes
  them.  An "emitted intent" stands for a call to `sendMove` / `sendStop`.
-/

/-- Keyed mutable-map embedding: an association list, first binding wins. -/
abbrev Store (κ α : Type) : Type := List (κ × α)

def storeGet {κ α : Type} [DecidableEq κ] : Store κ α → κ → Option α
  | [], _ => none
  | e :: rest, k => if e.1 = k then some e.2 else storeGet rest k

/-- Remove every binding of key `k` (JS `delete obj[k]` / `Map.delete`). -/
def storeDel {κ α : Type} [DecidableEq κ] : Store κ α → κ → Store κ α
  | [], _ => []
  | e :: rest, k => if e.1 = k then storeDel rest k else e :: storeDel rest k

/-- Write key `k` (JS `obj[k] = v` / `Map.set`). -/
def storeSet {κ α : Type} [DecidableEq κ] (s : Store κ α) (k : κ) (v : α) : Store κ α :=
  (k, v) :: storeDel s k

def storeKeys {κ α : Type} (s : Store κ α) : List κ := s.map Prod.fst

/-- Keys are pairwise distinct, as in a JS object or `Map`. -/
def NodupKeys {κ α : Type} (s : Store κ α) : Prop := (storeKeys s).Nodup

instance {κ α : Type} [DecidableEq κ] (s : Store κ α) : Decidable (NodupKeys s) := by
  unfold NodupKeys
  infer_instance

/-- The four arrow-key directions recognised by `directionForKey`. -/
inductive Dir where
  | up | down | left | right
deriving DecidableEq

/-- An authoritative player record as held in `this.players`.  `x`/`y` are
always carried by the server; the remaining fields may be absent from a
record that arrives inside a movement batch, hence `Option`. -/
structure Player where
  x : ℚ
  y : ℚ
  facing : Option String
  isMoving : Bool
  username : Option String
  avatar : Option String
deriving DecidableEq

/-- An avatar (visual-set) record as held in `this.avatars`. -/
structure Avatar where
  name : String
deriving DecidableEq

/-- A per-player render-state entry of `this.playerRenderState`. -/
structure RenderState where
  renderX : ℚ
  renderY : ℚ
  animMs : ℚ
  frameIndex : ℕ
deriving DecidableEq

/-- `this.animationFrameDurationMs = 120`. -/
def animationFrameDurationMs : ℚ := 120

/-- `this.positionSmoothingPerSecond = 10`. -/
def positionSmoothingPerSecond : ℚ := 10

/-- The state-bearing fields of `GameClient`. -/
structure GameState where
  players : Store ℕ Player
  avatars : Store String Avatar
  myPlayerId : Option ℕ
  viewportX : ℚ
  viewportY : ℚ
  playerRenderState : Store ℕ RenderState
  canvasW : ℚ
  canvasH : ℚ
  worldWidth : ℚ
  worldHeight : ℚ
deriving DecidableEq

/-- `ensureRenderState(playerId, x, y)`: seed an entry only when absent. -/
def ensureRenderState (rs : Store ℕ RenderState) (playerId : ℕ) (x y : ℚ) :
    Store ℕ RenderState :=
  if (storeGet rs playerId).isSome then rs
  else storeSet rs playerId { renderX := x, renderY := y, animMs := 0, frameIndex := 0 }

/-- `centerViewportOnPlayer()`: center on the smoothed position when a render
state exists (else the authoritative one) and clamp to world bounds. -/
def centerViewportOnPlayer (gs : GameState) : GameState :=
  match gs.myPlayerId with
  | none => gs
  | some pid =>
    match storeGet gs.players pid with
    | none => gs
    | some p =>
      let focusX := match storeGet gs.playerRenderState pid with
        | some st => st.renderX
        | none => p.x
      let focusY := match storeGet gs.playerRenderState pid with
        | some st => st.renderY
        | none => p.y
      let vx := focusX - gs.canvasW / 2
      let vy := focusY - gs.canvasH / 2
      { gs with
        viewportX := max 0 (min vx (gs.worldWidth - gs.canvasW)),
        viewportY := max 0 (min vy (gs.worldHeight - gs.canvasH)) }

/-- Inbound events consumed by `handleServerMessage`, tagged by `action`.
`joinGame` with `success = false` carries only an error string. -/
inductive ServerMessage where
  | joinGame (success : Bool) (playerId : ℕ) (players : Store ℕ Player)
      (avatars : Store String Avatar) (error : String)
  | playerJoined (playerId : ℕ) (player : Player) (avatar : Avatar)
  | playersMoved (players : Store ℕ Player)
  | playerLeft (playerId : ℕ)
  | unknown (action : String)

/-- `handleServerMessage(message)`: the Message Reconciler. -/
def handleServerMessage (gs : GameState) (m : ServerMessage) : GameState :=
  match m with
  | .joinGame success pid ps avs _err =>
    if success then
      let gs1 := { gs with myPlayerId := some pid, players := ps, avatars := avs }
      let gs2 := { gs1 with
        playerRenderState :=
          ps.foldl (fun rs (e : ℕ × Player) => ensureRenderState rs e.1 e.2.x e.2.y)
            gs1.playerRenderState }
      centerViewportOnPlayer gs2
    else gs
  | .playerJoined pid p av =>
    let gs1 := { gs with
      players := storeSet gs.players pid p,
      avatars := storeSet gs.avatars av.name av }
    { gs1 with playerRenderState := ensureRenderState gs1.playerRenderState pid p.x p.y }
  | .playersMoved ps =>
    let gs1 := { gs with
      players := ps.foldl (fun acc (e : ℕ × Player) => storeSet acc e.1 e.2) gs.players }
    { gs1 with
      playerRenderState :=
        ps.foldl (fun rs (e : ℕ × Player) => ensureRenderState rs e.1 e.2.x e.2.y)
          gs1.playerRenderState }
  | .playerLeft pid =>
    { gs with
      players := storeDel gs.players pid,
      playerRenderState := storeDel gs.playerRenderState pid }
  | .unknown _ => gs

/-- One step of exponential position smoothing (`render`, lines 410-412),
on one axis: `r + (a - r) * min(1, dt * positionSmoothingPerSecond)`,
with `dtSec` in seconds. -/
def smoothStep (dtSec a r : ℚ) : ℚ :=
  r + (a - r) * min 1 (dtSec * positionSmoothingPerSecond)

/-- `n` smoothing steps against a fixed authoritative coordinate `a`. -/
def smoothIter (dtSec a r : ℚ) : ℕ → ℚ
  | 0 => r
  | n + 1 => smoothStep dtSec a (smoothIter dtSec a r n)

/-- The animation `while` loop of `render` (lines 416-419): while the
accumulator meets or exceeds the frame duration, subtract it and advance
the frame cursor modulo 3. -/
def animLoop (a : ℚ) (f : ℕ) : ℚ × ℕ :=
  if h : animationFrameDurationMs ≤ a then
    animLoop (a - animationFrameDurationMs) ((f + 1) % 3)
  else (a, f)
  termination_by (⌊a / animationFrameDurationMs⌋).toNat
  decreasing_by
    have h120 : (0:ℚ) < animationFrameDurationMs := by norm_num [animationFrameDurationMs]
    have h1 : (1:ℚ) ≤ a / animationFrameDurationMs := by
      rw [le_div_iff₀ h120]; simpa using h
    have hfl : ⌊(a - animationFrameDurationMs) / animationFrameDurationMs⌋
        = ⌊a / animationFrameDurationMs⌋ - 1 := by
      rw [sub_div, div_self (ne_of_gt h120), Int.floor_sub_one]
    have hge : (1:ℤ) ≤ ⌊a / animationFrameDurationMs⌋ := by
      exact_mod_cast Int.le_floor.mpr (by exact_mod_cast h1)
    omega

/-- The per-entity animation update of one frame tick: accumulate and run the
loop when moving, reset to `(0, 0)` when not. -/
def animTick (isMoving : Bool) (dtMs : ℚ) (a : ℚ) (f : ℕ) : ℚ × ℕ :=
  if isMoving then animLoop (a + dtMs) f else (0, 0)

/-- The body of the per-player loop in `render` (lines 406-424), applied to
one render-state entry. -/
def updateRenderEntry (dtMs : ℚ) (p : Player) (st : RenderState) : RenderState :=
  let res := animTick p.isMoving dtMs st.animMs st.frameIndex
  { renderX := smoothStep (dtMs / 1000) p.x st.renderX,
    renderY := smoothStep (dtMs / 1000) p.y st.renderY,
    animMs := res.1,
    frameIndex := res.2 }

/-- One iteration of the per-player loop in `render`: ensure a render state
exists for the player, then smooth and animate it. -/
def tickPlayer (dtMs : ℚ) (rs : Store ℕ RenderState) (e : ℕ × Player) :
    Store ℕ RenderState :=
  let rs1 := ensureRenderState rs e.1 e.2.x e.2.y
  match storeGet rs1 e.1 with
  | some st => storeSet rs1 e.1 (updateRenderEntry dtMs e.2 st)
  | none => rs1

/-- One frame tick of `render` (without the draw calls and the cosmetic jump
timer): clamp the elapsed time to non-negative, smooth and animate every
player, then re-center the camera. -/
def renderTick (gs : GameState) (rawDtMs : ℚ) : GameState :=
  let dtMs := max 0 rawDtMs
  let gs1 := { gs with
    playerRenderState := gs.players.foldl (tickPlayer dtMs) gs.playerRenderState }
  centerViewportOnPlayer gs1

/-- An outbound intent: a call to `sendMove` or `sendStop`. -/
inductive Intent where
  | move (d : Dir)
  | stop
deriving DecidableEq

/-- The Input Intent Tracker's mutable state (`pressedDirections` as a list
of distinct elements, `heldOrder` most-recent-first). -/
structure InputState where
  pressedDirections : List Dir
  heldOrder : List Dir
deriving DecidableEq

/-- Result of a key event: new tracker state, the intents sent, and the
`setMyLocalMovement` call made, if any (facing argument, isMoving flag). -/
structure KeyResult where
  state : InputState
  sent : List Intent
  localMove : Option (Option Dir × Bool)
deriving DecidableEq

/-- `onKeyUp` for an arrow key mapping to direction `d` (lines 102-124). -/
def onKeyUp (s : InputState) (d : Dir) : KeyResult :=
  let s1 : InputState :=
    if s.pressedDirections.contains d then
      { pressedDirections := s.pressedDirections.filter (fun x => x ≠ d),
        heldOrder := s.heldOrder.filter (fun x => x ≠ d) }
    else s
  if s1.pressedDirections.isEmpty then
    { state := s1, sent := [Intent.stop], localMove := some (none, false) }
  else
    match s1.heldOrder.head? with
    | some nd => { state := s1, sent := [Intent.move nd], localMove := some (some nd, true) }
    | none => { state := s1, sent := [], localMove := none }

/-- `onKeyDown` for an arrow key mapping to direction `d` (lines 81-100):
add to the held set and recency front when new, always emit a move. -/
def onKeyDown (s : InputState) (d : Dir) : KeyResult :=
  let s1 : InputState :=
    if s.pressedDirections.contains d then s
    else
      { pressedDirections := s.pressedDirections ++ [d],
        heldOrder := d :: s.heldOrder }
  { state := s1, sent := [Intent.move d], localMove := some (some d, true) }

/-- Well-formedness maintained by the tracker: `pressedDirections` and
`heldOrder` hold the same directions, each without duplicates. -/
def InputWF (s : InputState) : Prop :=
  s.pressedDirections.Nodup ∧ s.heldOrder.Nodup ∧
    ∀ d : Dir, d ∈ s.pressedDirections ↔ d ∈ s.heldOrder

instance (s : InputState) : Decidable (InputWF s) := by
  unfold InputWF
  have : ∀ l₁ l₂ : List Dir, Decidable (∀ d : Dir, d ∈ l₁ ↔ d ∈ l₂) := fun l₁ l₂ =>
    decidable_of_iff (l₁ ⊆ l₂ ∧ l₂ ⊆ l₁) (by
      constructor
      · rintro ⟨h₁, h₂⟩ d; exact ⟨fun h => h₁ h, fun h => h₂ h⟩
      · intro h; exact ⟨fun d hd => (h d).mp hd, fun d hd => (h d).mpr hd⟩)
  exact instDecidableAnd

/-- The registry/render-state lockstep invariant: a render-state entry exists
for an identifier iff an entity with that identifier is registered. -/
def RegistrySync (gs : GameState) : Prop :=
  ∀ k : ℕ, (storeGet gs.players k).isSome ↔ (storeGet gs.playerRenderState k).isSome

/-- Side condition under which a self-join-accepted event keeps the lockstep
invariant: every identifier that already has a render-state entry appears in
the join snapshot.  All other events need no condition. -/
def SafeJoin (gs : GameState) (m : ServerMessage) : Prop :=
  match m with
  | .joinGame true _ ps _ _ =>
    ∀ k : ℕ, (storeGet gs.playerRenderState k).isSome → (storeGet ps k).isSome
  | _ => True

/-- Every render-state entry has its animation frame cursor in `{0, 1, 2}`. -/
def FrameOK (rs : Store ℕ RenderState) : Prop :=
  ∀ k st, storeGet rs k = some st → st.frameIndex < 3

/-- The accumulator/cursor pair after `n` frame ticks with the movement flag
set, each tick elapsing exactly one frame duration, starting from `(0, 0)`. -/
def movingTicks : ℕ → ℚ × ℕ
  | 0 => (0, 0)
  | n + 1 =>
    let r := movingTicks n
    animTick true animationFrameDurationMs r.1 r.2

/-! ### Store lemmas -/

theorem storeGet_nil {κ α : Type} [DecidableEq κ] (k : κ) :
    storeGet ([] : Store κ α) k = none := rfl

theorem storeGet_del {κ α : Type} [DecidableEq κ] (s : Store κ α) (k k' : κ) :
    storeGet (storeDel s k) k' = if k' = k then none else storeGet s k' := by
  by_cases hk : k' = k
  · subst hk
    rw [if_pos rfl]
    induction s with
    | nil => rfl
    | cons e rest ih =>
      simp only [storeDel]
      by_cases hek : e.1 = k'
      · rw [if_pos hek]; exact ih
      · rw [if_neg hek]; simp only [storeGet]; rw [if_neg hek]; exact ih
  · rw [if_neg hk]
    induction s with
    | nil => rfl
    | cons e rest ih =>
      simp only [storeDel]
      by_cases hek : e.1 = k
      · rw [if_pos hek, ih]
        have hne : e.1 ≠ k' := fun h => hk ((h ▸ hek : k' = k))
        simp only [storeGet]
        rw [if_neg hne]
      · rw [if_neg hek]
        simp only [storeGet]
        by_cases hek' : e.1 = k'
        · rw [if_pos hek', if_pos hek']
        · rw [if_neg hek', if_neg hek', ih]

theorem storeGet_set {κ α : Type} [DecidableEq κ] (s : Store κ α) (k k' : κ) (v : α) :
    storeGet (storeSet s k v) k' = if k = k' then some v else storeGet s k' := by
  simp only [storeSet, storeGet]
  by_cases h : k = k'
  · rw [if_pos h, if_pos h]
  · rw [if_neg h, if_neg h, storeGet_del, if_neg (fun h' : k' = k => h h'.symm)]

theorem storeGet_ensure (rs : Store ℕ RenderState) (pid : ℕ) (x y : ℚ) (k : ℕ) :
    storeGet (ensureRenderState rs pid x y) k =
      if pid = k then
        some ((storeGet rs pid).getD { renderX := x, renderY := y, animMs := 0, frameIndex := 0 })
      else storeGet rs k := by
  unfold ensureRenderState
  by_cases hs : (storeGet rs pid).isSome
  · rw [if_pos hs]
    by_cases hk : pid = k
    · subst hk
      obtain ⟨v, hv⟩ := Option.isSome_iff_exists.mp hs
      simp [hv]
    · simp [hk]
  · rw [if_neg hs, storeGet_set]
    by_cases hk : pid = k
    · subst hk
      simp [Option.not_isSome_iff_eq_none.mp hs]
    · simp [hk]

theorem storeGet_mem {κ α : Type} [DecidableEq κ] {s : Store κ α} {k : κ} {v : α}
    (h : storeGet s k = some v) : (k, v) ∈ s := by
  induction s with
  | nil => simp [storeGet] at h
  | cons e rest ih =>
    obtain ⟨k₀, v₀⟩ := e
    by_cases he : k₀ = k
    · have h' : some v₀ = some v := by simpa [storeGet, he] using h
      obtain rfl : v₀ = v := Option.some.inj h'
      subst he
      exact List.mem_cons_self _ _
    · have h' : storeGet rest k = some v := by simpa [storeGet, he] using h
      exact List.mem_cons_of_mem _ (ih h')

theorem storeGet_isSome_iff {κ α : Type} [DecidableEq κ] (s : Store κ α) (k : κ) :
    (storeGet s k).isSome ↔ k ∈ storeKeys s := by
  induction s with
  | nil => simp [storeGet, storeKeys]
  | cons e rest ih =>
    obtain ⟨k₀, v₀⟩ := e
    by_cases he : k₀ = k
    · simp [storeGet, storeKeys, he]
    · have hne : k ≠ k₀ := fun h => he h.symm
      simp [storeGet, storeKeys, he, hne, ih]

/-- A fold step that writes only its own key leaves other keys untouched. -/
theorem foldl_local_not_mem {α : Type}
    (f : Store ℕ α → ℕ × Player → Store ℕ α)
    (hf : ∀ rs e k, k ≠ e.1 → storeGet (f rs e) k = storeGet rs k)
    (l : List (ℕ × Player)) (rs : Store ℕ α) (k : ℕ)
    (hk : k ∉ storeKeys l) :
    storeGet (l.foldl f rs) k = storeGet rs k := by
  induction l generalizing rs with
  | nil => rfl
  | cons e rest ih =>
    simp only [storeKeys, List.map_cons, List.mem_cons, not_or] at hk
    simp only [List.foldl_cons]
    rw [ih _ (by simpa [storeKeys] using hk.2), hf _ _ _ hk.1]

/-- With distinct keys, a fold whose step writes only its own key — and whose
write there depends only on the binding already at that key — acts at a key
present in the list exactly as the single step for that entry. -/
theorem foldl_local_mem {α : Type}
    (f : Store ℕ α → ℕ × Player → Store ℕ α)
    (hf : ∀ rs e k, k ≠ e.1 → storeGet (f rs e) k = storeGet rs k)
    (hcong : ∀ rs rs' e, storeGet rs e.1 = storeGet rs' e.1 →
      storeGet (f rs e) e.1 = storeGet (f rs' e) e.1)
    (l : List (ℕ × Player)) (rs : Store ℕ α) (k : ℕ) (p : Player)
    (hnd : NodupKeys l) (hmem : (k, p) ∈ l) :
    storeGet (l.foldl f rs) k = storeGet (f rs (k, p)) k := by
  induction l generalizing rs with
  | nil => simp at hmem
  | cons e rest ih =>
    simp only [NodupKeys, storeKeys, List.map_cons, List.nodup_cons] at hnd
    rcases List.mem_cons.mp hmem with heq | hmem'
    · subst heq
      simp only [List.foldl_cons]
      exact foldl_local_not_mem f hf rest _ k (by simpa [storeKeys] using hnd.1)
    · have hk : k ≠ e.1 := by
        intro hke
        exact hnd.1 (hke ▸ (List.mem_map_of_mem Prod.fst hmem'))
      simp only [List.foldl_cons]
      rw [ih _ (by simpa [NodupKeys, storeKeys] using hnd.2) hmem']
      exact hcong _ _ (k, p) (hf rs e k hk)

theorem storeGet_ensure_self (rs : Store ℕ RenderState) (pid : ℕ) (x y : ℚ) :
    storeGet (ensureRenderState rs pid x y) pid =
      some ((storeGet rs pid).getD
        { renderX := x, renderY := y, animMs := 0, frameIndex := 0 }) := by
  rw [storeGet_ensure, if_pos rfl]

/-! ### Camera lemmas -/

theorem centerViewport_players (gs : GameState) :
    (centerViewportOnPlayer gs).players = gs.players := by
  unfold centerViewportOnPlayer
  split
  · rfl
  · split
    · rfl
    · rfl

theorem centerViewport_renderState (gs : GameState) :
    (centerViewportOnPlayer gs).playerRenderState = gs.playerRenderState := by
  unfold centerViewportOnPlayer
  split
  · rfl
  · split
    · rfl
    · rfl

/-- Clamping by `max 0 (min x hi)` is clamping into `[0, hi]` when the
interval is genuine. -/
theorem max_min_clamp (x hi : ℚ) (h : 0 ≤ hi) :
    max 0 (min x hi) = min (max x 0) hi := by
  rcases le_total x 0 with hx | hx
  · rw [min_eq_left (le_trans hx h), max_eq_left hx, max_eq_right hx, min_eq_left h]
  · rcases le_total x hi with hx2 | hx2
    · rw [min_eq_left hx2, max_eq_right hx, max_eq_left hx, min_eq_left hx2]
    · rw [min_eq_right hx2, max_eq_right h, max_eq_left hx, min_eq_right hx2]

/-! ### Animation-loop lemmas -/

theorem animLoop_step (a : ℚ) (f : ℕ) (h : animationFrameDurationMs ≤ a) :
    animLoop a f = animLoop (a - animationFrameDurationMs) ((f + 1) % 3) := by
  rw [animLoop]
  rw [dif_pos h]

theorem animLoop_done (a : ℚ) (f : ℕ) (h : a < animationFrameDurationMs) :
    animLoop a f = (a, f) := by
  rw [animLoop]
  rw [dif_neg (not_le.mpr h)]

theorem animLoop_snd_lt (a : ℚ) (f : ℕ) : f < 3 → (animLoop a f).2 < 3 := by
  induction a, f using animLoop.induct with
  | case1 a f h ih =>
    intro _
    rw [animLoop_step a f h]
    exact ih (Nat.mod_lt _ (by norm_num))
  | case2 a f h =>
    intro hf
    rw [animLoop_done a f (not_le.mp h)]
    exact hf

theorem movingTicks_eq (n : ℕ) : movingTicks n = (0, n % 3) := by
  induction n with
  | zero => rfl
  | succ n ih =>
    rw [movingTicks, ih]
    show animTick true animationFrameDurationMs 0 (n % 3) = (0, (n + 1) % 3)
    rw [animTick, if_pos rfl, zero_add,
      animLoop_step _ _ (le_refl _), sub_self,
      animLoop_done _ _ (by norm_num [animationFrameDurationMs])]
    have : (n % 3 + 1) % 3 = (n + 1) % 3 := by omega
    rw [this]

/-! ### Per-player tick lemmas -/

theorem tickPlayer_eq (dt : ℚ) (rs : Store ℕ RenderState) (e : ℕ × Player) :
    tickPlayer dt rs e =
      storeSet (ensureRenderState rs e.1 e.2.x e.2.y) e.1
        (updateRenderEntry dt e.2 ((storeGet rs e.1).getD
          { renderX := e.2.x, renderY := e.2.y, animMs := 0, frameIndex := 0 })) := by
  simp only [tickPlayer]
  rw [storeGet_ensure_self]

theorem storeGet_tickPlayer_ne (dt : ℚ) (rs : Store ℕ RenderState) (e : ℕ × Player)
    (k : ℕ) (hk : k ≠ e.1) :
    storeGet (tickPlayer dt rs e) k = storeGet rs k := by
  rw [tickPlayer_eq, storeGet_set, if_neg (fun h => hk h.symm), storeGet_ensure,
    if_neg (fun h => hk h.symm)]

theorem storeGet_tickPlayer_self (dt : ℚ) (rs : Store ℕ RenderState) (e : ℕ × Player) :
    storeGet (tickPlayer dt rs e) e.1 =
      some (updateRenderEntry dt e.2 ((storeGet rs e.1).getD
        { renderX := e.2.x, renderY := e.2.y, animMs := 0, frameIndex := 0 })) := by
  rw [tickPlayer_eq, storeGet_set, if_pos rfl]

/-! ### Fold lemmas on existence of keys -/

theorem ensure_foldl_isSome (l : List (ℕ × Player)) (rs : Store ℕ RenderState) (k : ℕ) :
    (storeGet (l.foldl (fun rs (e : ℕ × Player) => ensureRenderState rs e.1 e.2.x e.2.y) rs)
        k).isSome ↔
      (storeGet rs k).isSome ∨ k ∈ storeKeys l := by
  induction l generalizing rs with
  | nil => simp [storeKeys]
  | cons e tl ih =>
    simp only [List.foldl_cons, storeKeys, List.map_cons, List.mem_cons]
    rw [ih, storeGet_ensure]
    by_cases he : e.1 = k
    · simp [he]
    · have hne : ¬ k = e.1 := fun h => he h.symm
      simp only [if_neg he]
      constructor
      · rintro (h | h)
        · exact Or.inl h
        · exact Or.inr (Or.inr h)
      · rintro (h | h | h)
        · exact Or.inl h
        · exact absurd h hne
        · exact Or.inr h

theorem set_foldl_isSome (l : List (ℕ × Player)) (acc : Store ℕ Player) (k : ℕ) :
    (storeGet (l.foldl (fun acc (e : ℕ × Player) => storeSet acc e.1 e.2) acc) k).isSome ↔
      (storeGet acc k).isSome ∨ k ∈ storeKeys l := by
  induction l generalizing acc with
  | nil => simp [storeKeys]
  | cons e tl ih =>
    simp only [List.foldl_cons, storeKeys, List.map_cons, List.mem_cons]
    rw [ih, storeGet_set]
    by_cases he : e.1 = k
    · simp [he]
    · have hne : ¬ k = e.1 := fun h => he h.symm
      simp only [if_neg he]
      constructor
      · rintro (h | h)
        · exact Or.inl h
        · exact Or.inr (Or.inr h)
      · rintro (h | h | h)
        · exact Or.inl h
        · exact absurd h hne
        · exact Or.inr h

theorem renderTick_renderState (gs : GameState) (dt : ℚ) :
    (renderTick gs dt).playerRenderState =
      gs.players.foldl (tickPlayer (max 0 dt)) gs.playerRenderState := by
  simp only [renderTick]
  rw [centerViewport_renderState]

theorem frameOK_ensure {rs : Store ℕ RenderState} (h : FrameOK rs) (id : ℕ) (x y : ℚ) :
    FrameOK (ensureRenderState rs id x y) := by
  intro k st hst
  rw [storeGet_ensure] at hst
  by_cases hk : id = k
  · rw [if_pos hk] at hst
    cases hrs : storeGet rs id with
    | none =>
      rw [hrs] at hst
      cases Option.some.inj hst
      norm_num
    | some v =>
      rw [hrs] at hst
      cases Option.some.inj hst
      exact h id v hrs
  · rw [if_neg hk] at hst
    exact h k st hst

theorem frameOK_tickPlayer {rs : Store ℕ RenderState} (h : FrameOK rs) (dt : ℚ)
    (e : ℕ × Player) : FrameOK (tickPlayer dt rs e) := by
  intro k st hst
  by_cases hk : k = e.1
  · rw [hk, storeGet_tickPlayer_self] at hst
    cases Option.some.inj hst
    have hf0 : ((storeGet rs e.1).getD
        { renderX := e.2.x, renderY := e.2.y, animMs := 0, frameIndex := 0 }).frameIndex
          < 3 := by
      cases hrs : storeGet rs e.1 with
      | none => norm_num
      | some v => simpa using h e.1 v hrs
    cases hm : e.2.isMoving with
    | false => simp [updateRenderEntry, animTick, hm]
    | true =>
      simp only [updateRenderEntry, animTick, hm, if_pos]
      exact animLoop_snd_lt _ _ hf0
  · rw [storeGet_tickPlayer_ne _ _ _ _ hk] at hst
    exact h k st hst

theorem frameOK_foldl {l : List (ℕ × Player)} {rs : Store ℕ RenderState}
    (h : FrameOK rs) (dt : ℚ) : FrameOK (l.foldl (tickPlayer dt) rs) := by
  induction l generalizing rs with
  | nil => exact h
  | cons e tl ih => exact ih (frameOK_tickPlayer h dt e)

/-! ### Claim theorems -/

/-- C4: camera recentering sets the viewport offset on each axis to focus
minus half the viewport size clamped into `[0, worldSize − viewportSize]`,
and when the viewport exceeds the world on an axis the offset is 0 regardless
of the focus point. -/
theorem camera_recenter_clamps (gs : GameState) (pid : ℕ) (p : Player) (st : RenderState)
    (hmy : gs.myPlayerId = some pid)
    (hp : storeGet gs.players pid = some p)
    (hs : storeGet gs.playerRenderState pid = some st) :
    ((gs.canvasW ≤ gs.worldWidth →
        (centerViewportOnPlayer gs).viewportX =
          min (max (st.renderX - gs.canvasW / 2) 0) (gs.worldWidth - gs.canvasW)) ∧
      (gs.worldWidth < gs.canvasW → (centerViewportOnPlayer gs).viewportX = 0)) ∧
    ((gs.canvasH ≤ gs.worldHeight →
        (centerViewportOnPlayer gs).viewportY =
          min (max (st.renderY - gs.canvasH / 2) 0) (gs.worldHeight - gs.canvasH)) ∧
      (gs.worldHeight < gs.canvasH → (centerViewportOnPlayer gs).viewportY = 0)) := by
  have hvx : (centerViewportOnPlayer gs).viewportX
      = max 0 (min (st.renderX - gs.canvasW / 2) (gs.worldWidth - gs.canvasW)) := by
    simp only [centerViewportOnPlayer, hmy, hp, hs]
  have hvy : (centerViewportOnPlayer gs).viewportY
      = max 0 (min (st.renderY - gs.canvasH / 2) (gs.worldHeight - gs.canvasH)) := by
    simp only [centerViewportOnPlayer, hmy, hp, hs]
  refine ⟨⟨?_, ?_⟩, ?_, ?_⟩
  · intro h
    rw [hvx, max_min_clamp _ _ (by linarith)]
  · intro h
    rw [hvx]
    exact max_eq_left (le_trans (min_le_right _ _) (by linarith))
  · intro h
    rw [hvy, max_min_clamp _ _ (by linarith)]
  · intro h
    rw [hvy]
    exact max_eq_left (le_trans (min_le_right _ _) (by linarith))

theorem camera_recenter_clamps_witness :
    (centerViewportOnPlayer
        { players := [(1, ⟨1000, 500, none, false, none, none⟩)], avatars := [],
          myPlayerId := some 1, viewportX := 0, viewportY := 0,
          playerRenderState := [(1, ⟨1000, 500, 0, 0⟩)],
          canvasW := 800, canvasH := 600,
          worldWidth := 2048, worldHeight := 2048 }).viewportX =
      min (max (1000 - 800 / 2) 0) (2048 - 800) ∧
    (centerViewportOnPlayer
        { players := [(1, ⟨1000, 500, none, false, none, none⟩)], avatars := [],
          myPlayerId := some 1, viewportX := 0, viewportY := 0,
          playerRenderState := [(1, ⟨1000, 500, 0, 0⟩)],
          canvasW := 4096, canvasH := 600,
          worldWidth := 2048, worldHeight := 2048 }).viewportX = 0 :=
  ⟨(camera_recenter_clamps
      { players := [(1, ⟨1000, 500, none, false, none, none⟩)], avatars := [],
        myPlayerId := some 1, viewportX := 0, viewportY := 0,
        playerRenderState := [(1, ⟨1000, 500, 0, 0⟩)],
        canvasW := 800, canvasH := 600,
        worldWidth := 2048, worldHeight := 2048 }
      1 ⟨1000, 500, none, false, none, none⟩ ⟨1000, 500, 0, 0⟩
      rfl rfl rfl).1.1 (by norm_num),
    (camera_recenter_clamps
      { players := [(1, ⟨1000, 500, none, false, none, none⟩)], avatars := [],
        myPlayerId := some 1, viewportX := 0, viewportY := 0,
        playerRenderState := [(1, ⟨1000, 500, 0, 0⟩)],
        canvasW := 4096, canvasH := 600,
        worldWidth := 2048, worldHeight := 2048 }
      1 ⟨1000, 500, none, false, none, none⟩ ⟨1000, 500, 0, 0⟩
      rfl rfl rfl).1.2 (by norm_num)⟩

/-- C6: for an entity whose movement flag is false, any single frame tick
leaves its animation accumulator and frame cursor at 0, regardless of their
prior values. -/
theorem idle_resets_animation (gs : GameState) (dt : ℚ) (id : ℕ) (p : Player)
    (hnd : NodupKeys gs.players)
    (hp : storeGet gs.players id = some p)
    (hm : p.isMoving = false) :
    ∃ st, storeGet (renderTick gs dt).playerRenderState id = some st ∧
      st.animMs = 0 ∧ st.frameIndex = 0 := by
  have hfold := foldl_local_mem (tickPlayer (max 0 dt))
    (fun rs e k hk => storeGet_tickPlayer_ne _ rs e k hk)
    (fun rs rs' e h => by rw [storeGet_tickPlayer_self, storeGet_tickPlayer_self, h])
    gs.players gs.playerRenderState id p hnd (storeGet_mem hp)
  refine ⟨updateRenderEntry (max 0 dt) p
    ((storeGet gs.playerRenderState id).getD
      { renderX := p.x, renderY := p.y, animMs := 0, frameIndex := 0 }), ?_, ?_, ?_⟩
  · rw [renderTick_renderState, hfold, storeGet_tickPlayer_self]
  · simp [updateRenderEntry, animTick, hm]
  · simp [updateRenderEntry, animTick, hm]

theorem idle_resets_animation_witness :
    ∃ st, storeGet (renderTick
        { players := [(3, ⟨50, 60, some "south", false, some "ann", some "cat"⟩)],
          avatars := [], myPlayerId := some 3, viewportX := 0, viewportY := 0,
          playerRenderState := [(3, ⟨40, 40, 77, 2⟩)],
          canvasW := 800, canvasH := 600,
          worldWidth := 2048, worldHeight := 2048 } 16).playerRenderState 3 = some st ∧
      st.animMs = 0 ∧ st.frameIndex = 0 :=
  idle_resets_animation
    { players := [(3, ⟨50, 60, some "south", false, some "ann", some "cat"⟩)],
      avatars := [], myPlayerId := some 3, viewportX := 0, viewportY := 0,
      playerRenderState := [(3, ⟨40, 40, 77, 2⟩)],
      canvasW := 800, canvasH := 600,
      worldWidth := 2048, worldHeight := 2048 }
    16 3 ⟨50, 60, some "south", false, some "ann", some "cat"⟩
    (by decide) rfl rfl

/-- C7: with the movement flag true and each tick contributing exactly one
frame duration, the frame cursor cycles 0,1,2,0,…; in general the loop
subtracts the frame duration and advances the cursor modulo 3 as long as the
accumulator meets or exceeds the duration, and stops below it. -/
theorem frame_cycling :
    (∀ n : ℕ, movingTicks n = (0, n % 3)) ∧
    (∀ (a : ℚ) (f : ℕ), animationFrameDurationMs ≤ a →
      animLoop a f = animLoop (a - animationFrameDurationMs) ((f + 1) % 3)) ∧
    (∀ (a : ℚ) (f : ℕ), a < animationFrameDurationMs → animLoop a f = (a, f)) :=
  ⟨movingTicks_eq, animLoop_step, animLoop_done⟩

theorem frame_cycling_witness :
    movingTicks 4 = (0, 1) ∧ animLoop 130 2 = animLoop 10 0 ∧ animLoop 10 0 = (10, 0) := by
  refine ⟨?_, ?_, ?_⟩
  · rw [frame_cycling.1 4]
  · have h := frame_cycling.2.1 130 2 (by norm_num [animationFrameDurationMs])
    norm_num [animationFrameDurationMs] at h
    exact h
  · exact frame_cycling.2.2 10 0 (by norm_num [animationFrameDurationMs])

/-- C8: a rejected join and an unrecognized event leave the whole client
state (registry, render-state map, local identifier, camera offset)
unchanged. -/
theorem rejected_and_unknown_leave_state (gs : GameState) (pid : ℕ) (ps : Store ℕ Player)
    (avs : Store String Avatar) (err act : String) :
    handleServerMessage gs (.joinGame false pid ps avs err) = gs ∧
    handleServerMessage gs (.unknown act) = gs :=
  ⟨rfl, rfl⟩

/-- C9: after every frame tick and every render-state creation, every
render-state entry's frame cursor lies in `{0, 1, 2}`. -/
theorem frame_cursor_invariant (gs : GameState) (dt : ℚ) (rs : Store ℕ RenderState)
    (id : ℕ) (x y : ℚ) :
    (FrameOK gs.playerRenderState → FrameOK (renderTick gs dt).playerRenderState) ∧
    (FrameOK rs → FrameOK (ensureRenderState rs id x y)) := by
  constructor
  · intro h
    rw [renderTick_renderState]
    exact frameOK_foldl h _
  · intro h
    exact frameOK_ensure h id x y

theorem frame_cursor_invariant_witness :
    FrameOK (renderTick
        { players := [(3, ⟨50, 60, some "south", true, some "ann", some "cat"⟩)],
          avatars := [], myPlayerId := some 3, viewportX := 0, viewportY := 0,
          playerRenderState := [], canvasW := 800, canvasH := 600,
          worldWidth := 2048, worldHeight := 2048 } 300).playerRenderState ∧
    FrameOK (ensureRenderState [] 7 1 2) := by
  have hempty : FrameOK ([] : Store ℕ RenderState) := by
    intro k st h
    simp [storeGet] at h
  exact ⟨(frame_cursor_invariant
      { players := [(3, ⟨50, 60, some "south", true, some "ann", some "cat"⟩)],
        avatars := [], myPlayerId := some 3, viewportX := 0, viewportY := 0,
        playerRenderState := [], canvasW := 800, canvasH := 600,
        worldWidth := 2048, worldHeight := 2048 } 300 [] 7 1 2).1 hempty,
    (frame_cursor_invariant
      { players := [(3, ⟨50, 60, some "south", true, some "ann", some "cat"⟩)],
        avatars := [], myPlayerId := some 3, viewportX := 0, viewportY := 0,
        playerRenderState := [], canvasW := 800, canvasH := 600,
        worldWidth := 2048, worldHeight := 2048 } 300 [] 7 1 2).2 hempty⟩

/-- C10: calling the render-state creation operation again for an identifier
that already has an entry leaves the map, hence the existing entry (smoothed
position, accumulator, cursor), completely unchanged. -/
theorem ensure_idempotent (rs : Store ℕ RenderState) (id : ℕ) (x y : ℚ) (st : RenderState)
    (h : storeGet rs id = some st) :
    ensureRenderState rs id x y = rs ∧
      storeGet (ensureRenderState rs id x y) id = some st := by
  have hs : (storeGet rs id).isSome = true := by rw [h]; rfl
  unfold ensureRenderState
  rw [if_pos hs]
  exact ⟨rfl, h⟩

theorem ensure_idempotent_witness :
    ensureRenderState [(1, ⟨5, 6, 7, 2⟩)] 1 9 9 = [(1, ⟨5, 6, 7, 2⟩)] ∧
      storeGet (ensureRenderState [(1, ⟨5, 6, 7, 2⟩)] 1 9 9) 1 = some ⟨5, 6, 7, 2⟩ :=
  ensure_idempotent [(1, ⟨5, 6, 7, 2⟩)] 1 9 9 ⟨5, 6, 7, 2⟩ rfl

/-- C2 counterexample: with `dt = 1s` (a positive tick, e.g. returning from a
backgrounded tab) the interpolation factor is clamped to 1 and the smoothed
position equals the authoritative position exactly after one tick, so the
distance cannot strictly decrease on the following tick either. -/
theorem smoothing_snaps_when_t_clamped :
    (0 : ℚ) < 1 ∧ smoothStep 1 200 100 = 200 ∧
      ¬ |(200 : ℚ) - smoothStep 1 200 (smoothStep 1 200 100)|
          < |(200 : ℚ) - smoothStep 1 200 100| := by
  norm_num [smoothStep, positionSmoothingPerSecond]

/-- C2 (amended): when each tick satisfies `0 < dt` and
`dt * positionSmoothingPerSecond < 1`, and the smoothed coordinate differs
from the fixed authoritative one, every tick strictly decreases the distance
to the authoritative coordinate, the smoothed coordinate never equals it
after finitely many ticks, and the distance eventually falls below any
positive bound. -/
theorem smoothing_convergence (dt a r : ℚ) (hdt : 0 < dt)
    (hlt : dt * positionSmoothingPerSecond < 1) (hne : r ≠ a) :
    (∀ n, |a - smoothIter dt a r (n + 1)| < |a - smoothIter dt a r n|) ∧
    (∀ n, smoothIter dt a r n ≠ a) ∧
    (∀ ε : ℚ, 0 < ε → ∃ N, ∀ n, N ≤ n → |smoothIter dt a r n - a| < ε) := by
  set t : ℚ := dt * positionSmoothingPerSecond with ht
  have hpos : (0 : ℚ) < positionSmoothingPerSecond := by
    norm_num [positionSmoothingPerSecond]
  have ht0 : 0 < t := mul_pos hdt hpos
  have h1t : 0 < 1 - t := by linarith
  have h1t' : 1 - t < 1 := by linarith
  have key : ∀ n, smoothIter dt a r n - a = (r - a) * (1 - t) ^ n := by
    intro n
    induction n with
    | zero => simp [smoothIter]
    | succ n ih =>
      have hstep : smoothIter dt a r (n + 1)
          = smoothIter dt a r n + (a - smoothIter dt a r n) * t := by
        simp only [smoothIter, smoothStep]
        rw [min_eq_right hlt.le]
      have h2 : smoothIter dt a r n = (r - a) * (1 - t) ^ n + a := by linarith
      rw [hstep, h2]
      ring
  have hd0 : 0 < |r - a| := abs_pos.mpr (sub_ne_zero.mpr hne)
  have hdist : ∀ n, |smoothIter dt a r n - a| = |r - a| * (1 - t) ^ n := by
    intro n
    rw [key n, abs_mul, abs_pow, abs_of_pos h1t]
  refine ⟨?_, ?_, ?_⟩
  · intro n
    rw [abs_sub_comm a, abs_sub_comm a, hdist, hdist, pow_succ]
    have hp : 0 < |r - a| * (1 - t) ^ n :=
      mul_pos hd0 (pow_pos h1t n)
    calc |r - a| * ((1 - t) ^ n * (1 - t))
        = (|r - a| * (1 - t) ^ n) * (1 - t) := by ring
      _ < (|r - a| * (1 - t) ^ n) * 1 := by
          exact mul_lt_mul_of_pos_left h1t' hp
      _ = |r - a| * (1 - t) ^ n := by ring
  · intro n
    have := key n
    intro hEq
    rw [hEq, sub_self] at this
    exact absurd this.symm
      (mul_ne_zero (sub_ne_zero.mpr hne) (pow_ne_zero n (ne_of_gt h1t)))
  · intro ε hε
    obtain ⟨N, hN⟩ := exists_pow_lt_of_lt_one (div_pos hε hd0) h1t'
    refine ⟨N, fun n hn => ?_⟩
    rw [hdist]
    have hmono : (1 - t) ^ n ≤ (1 - t) ^ N :=
      pow_le_pow_of_le_one h1t.le (by linarith) hn
    calc |r - a| * (1 - t) ^ n ≤ |r - a| * (1 - t) ^ N :=
          mul_le_mul_of_nonneg_left hmono hd0.le
      _ < |r - a| * (ε / |r - a|) :=
          mul_lt_mul_of_pos_left hN hd0
      _ = ε := by field_simp

theorem smoothing_convergence_witness :
    |(1 : ℚ) - smoothIter (1/20) 1 0 1| < |(1 : ℚ) - smoothIter (1/20) 1 0 0| ∧
      smoothIter (1/20) 1 0 3 ≠ 1 :=
  ⟨(smoothing_convergence (1/20) 1 0 (by norm_num)
      (by norm_num [positionSmoothingPerSecond]) (by norm_num)).1 0,
    (smoothing_convergence (1/20) 1 0 (by norm_num)
      (by norm_num [positionSmoothingPerSecond]) (by norm_num)).2.1 3⟩

theorem registrySync_centerViewport (gs : GameState) :
    RegistrySync (centerViewportOnPlayer gs) ↔ RegistrySync gs := by
  unfold RegistrySync
  rw [centerViewport_players, centerViewport_renderState]

/-- C1 counterexample: from a state satisfying the lockstep invariant, a
second successful join whose snapshot omits a previously known identifier
leaves that identifier's render state behind while the registry is replaced,
breaking the iff. -/
theorem second_join_breaks_lockstep :
    RegistrySync
      { players := [(1, ⟨10, 10, none, false, some "a", some "c"⟩)], avatars := [],
        myPlayerId := some 1, viewportX := 0, viewportY := 0,
        playerRenderState := [(1, ⟨10, 10, 0, 0⟩)], canvasW := 800, canvasH := 600,
        worldWidth := 2048, worldHeight := 2048 } ∧
    ¬ RegistrySync (handleServerMessage
      { players := [(1, ⟨10, 10, none, false, some "a", some "c"⟩)], avatars := [],
        myPlayerId := some 1, viewportX := 0, viewportY := 0,
        playerRenderState := [(1, ⟨10, 10, 0, 0⟩)], canvasW := 800, canvasH := 600,
        worldWidth := 2048, worldHeight := 2048 }
      (.joinGame true 2 [(2, ⟨5, 5, none, false, some "b", some "d"⟩)] [] "")) := by
  constructor
  · intro k
    by_cases hk : k = 1
    · subst hk
      decide
    · have h1 : ¬ ((1 : ℕ) = k) := fun h => hk h.symm
      simp [storeGet, h1]
  · intro h
    have h1 := h 1
    revert h1
    decide

/-- C1 (amended): the lockstep invariant (render state exists iff the entity
is registered) is preserved by peer-joined, peer-batch-update, peer-left and
unrecognized/rejected events unconditionally, and by self-join-accepted
exactly when no identifier outside the new snapshot still holds a render
state (in particular on a first join from the empty state). -/
theorem registry_render_lockstep (gs : GameState) (m : ServerMessage)
    (hinv : RegistrySync gs) (hsafe : SafeJoin gs m) :
    RegistrySync (handleServerMessage gs m) := by
  cases m with
  | joinGame success pid ps avs err =>
    cases success with
    | false => exact hinv
    | true =>
      simp only [handleServerMessage, if_true]
      rw [registrySync_centerViewport]
      intro k
      show (storeGet ps k).isSome ↔ _
      rw [ensure_foldl_isSome]
      constructor
      · intro hk
        exact Or.inr ((storeGet_isSome_iff ps k).mp hk)
      · rintro (hk | hk)
        · exact hsafe k hk
        · exact (storeGet_isSome_iff ps k).mpr hk
  | playerJoined pid p av =>
    intro k
    show (storeGet (storeSet gs.players pid p) k).isSome ↔
      (storeGet (ensureRenderState gs.playerRenderState pid p.x p.y) k).isSome
    rw [storeGet_set, storeGet_ensure]
    by_cases hk : pid = k
    · simp [hk]
    · rw [if_neg hk, if_neg hk]
      exact hinv k
  | playersMoved ps =>
    intro k
    show (storeGet (ps.foldl (fun acc (e : ℕ × Player) => storeSet acc e.1 e.2)
        gs.players) k).isSome ↔
      (storeGet (ps.foldl (fun rs (e : ℕ × Player) => ensureRenderState rs e.1 e.2.x e.2.y)
        gs.playerRenderState) k).isSome
    rw [set_foldl_isSome, ensure_foldl_isSome, hinv k]
  | playerLeft pid =>
    intro k
    show (storeGet (storeDel gs.players pid) k).isSome ↔
      (storeGet (storeDel gs.playerRenderState pid) k).isSome
    rw [storeGet_del, storeGet_del]
    by_cases hk : k = pid
    · simp [hk]
    · rw [if_neg hk, if_neg hk]
      exact hinv k
  | unknown act => exact hinv

theorem registry_render_lockstep_witness :
    RegistrySync (handleServerMessage
      { players := [], avatars := [], myPlayerId := none, viewportX := 0, viewportY := 0,
        playerRenderState := [], canvasW := 800, canvasH := 600,
        worldWidth := 2048, worldHeight := 2048 }
      (.playerJoined 5 ⟨1, 2, none, false, some "e", some "f"⟩ ⟨"f"⟩)) :=
  registry_render_lockstep
    { players := [], avatars := [], myPlayerId := none, viewportX := 0, viewportY := 0,
      playerRenderState := [], canvasW := 800, canvasH := 600,
      worldWidth := 2048, worldHeight := 2048 }
    (.playerJoined 5 ⟨1, 2, none, false, some "e", some "f"⟩ ⟨"f"⟩)
    (fun _ => Iff.rfl) trivial

/-- C3 counterexample: an entity known with a display name receives a batch
record carrying only position/movement fields; `Object.assign` replaces the
whole stored record, so the display name is dropped rather than left
unchanged. -/
theorem batch_update_drops_fields :
    storeGet
      ({ players := [(1, ⟨10, 20, some "south", false, some "alice", some "cat"⟩)],
         avatars := [], myPlayerId := some 1, viewportX := 0, viewportY := 0,
         playerRenderState := [(1, ⟨10, 20, 0, 0⟩)], canvasW := 800, canvasH := 600,
         worldWidth := 2048, worldHeight := 2048 } : GameState).players 1 =
      some ⟨10, 20, some "south", false, some "alice", some "cat"⟩ ∧
    storeGet (handleServerMessage
      { players := [(1, ⟨10, 20, some "south", false, some "alice", some "cat"⟩)],
        avatars := [], myPlayerId := some 1, viewportX := 0, viewportY := 0,
        playerRenderState := [(1, ⟨10, 20, 0, 0⟩)], canvasW := 800, canvasH := 600,
        worldWidth := 2048, worldHeight := 2048 }
      (.playersMoved [(1, ⟨5, 6, none, true, none, none⟩)])).players 1 =
      some ⟨5, 6, none, true, none, none⟩ ∧
    ¬ ((storeGet (handleServerMessage
        { players := [(1, ⟨10, 20, some "south", false, some "alice", some "cat"⟩)],
          avatars := [], myPlayerId := some 1, viewportX := 0, viewportY := 0,
          playerRenderState := [(1, ⟨10, 20, 0, 0⟩)], canvasW := 800, canvasH := 600,
          worldWidth := 2048, worldHeight := 2048 }
        (.playersMoved [(1, ⟨5, 6, none, true, none, none⟩)])).players 1).map
          Player.username =
      (storeGet
        ({ players := [(1, ⟨10, 20, some "south", false, some "alice", some "cat"⟩)],
           avatars := [], myPlayerId := some 1, viewportX := 0, viewportY := 0,
           playerRenderState := [(1, ⟨10, 20, 0, 0⟩)], canvasW := 800, canvasH := 600,
           worldWidth := 2048, worldHeight := 2048 } : GameState).players 1).map
          Player.username) := by
  refine ⟨rfl, rfl, ?_⟩
  decide

/-- C3 (amended): a peer-batch-update replaces the entire stored record for
every identifier named in the batch with the record the batch carries
(fields the batch omits are absent afterwards); identifiers not previously
known get a render state seeded at the carried position. -/
theorem batch_replaces_records (gs : GameState) (ps : Store ℕ Player) (id : ℕ) (d : Player)
    (hnd : NodupKeys ps) (hmem : storeGet ps id = some d) :
    storeGet (handleServerMessage gs (.playersMoved ps)).players id = some d ∧
    (storeGet gs.playerRenderState id = none →
      storeGet (handleServerMessage gs (.playersMoved ps)).playerRenderState id =
        some { renderX := d.x, renderY := d.y, animMs := 0, frameIndex := 0 }) := by
  have hm := storeGet_mem hmem
  constructor
  · show storeGet (ps.foldl (fun acc (e : ℕ × Player) => storeSet acc e.1 e.2)
      gs.players) id = some d
    have hfold := foldl_local_mem (fun acc (e : ℕ × Player) => storeSet acc e.1 e.2)
      (fun rs e k hk => by
        simp only []
        rw [storeGet_set, if_neg (fun h => hk h.symm)])
      (fun rs rs' e _ => by
        simp only []
        rw [storeGet_set, storeGet_set, if_pos rfl, if_pos rfl])
      ps gs.players id d hnd hm
    rw [hfold]
    simp only []
    rw [storeGet_set, if_pos rfl]
  · intro hnone
    show storeGet (ps.foldl (fun rs (e : ℕ × Player) => ensureRenderState rs e.1 e.2.x e.2.y)
      gs.playerRenderState) id = _
    have hfold := foldl_local_mem
      (fun rs (e : ℕ × Player) => ensureRenderState rs e.1 e.2.x e.2.y)
      (fun rs e k hk => by
        simp only []
        rw [storeGet_ensure, if_neg (fun h => hk h.symm)])
      (fun rs rs' e h => by
        simp only []
        rw [storeGet_ensure_self, storeGet_ensure_self, h])
      ps gs.playerRenderState id d hnd hm
    rw [hfold]
    simp only []
    rw [storeGet_ensure_self, hnone]
    rfl

theorem batch_replaces_records_witness :
    storeGet (handleServerMessage
      { players := [], avatars := [], myPlayerId := none, viewportX := 0, viewportY := 0,
        playerRenderState := [], canvasW := 800, canvasH := 600,
        worldWidth := 2048, worldHeight := 2048 }
      (.playersMoved [(7, ⟨3, 4, none, true, none, none⟩)])).players 7 =
      some ⟨3, 4, none, true, none, none⟩ ∧
    storeGet (handleServerMessage
      { players := [], avatars := [], myPlayerId := none, viewportX := 0, viewportY := 0,
        playerRenderState := [], canvasW := 800, canvasH := 600,
        worldWidth := 2048, worldHeight := 2048 }
      (.playersMoved [(7, ⟨3, 4, none, true, none, none⟩)])).playerRenderState 7 =
      some ⟨3, 4, 0, 0⟩ :=
  ⟨(batch_replaces_records
      { players := [], avatars := [], myPlayerId := none, viewportX := 0, viewportY := 0,
        playerRenderState := [], canvasW := 800, canvasH := 600,
        worldWidth := 2048, worldHeight := 2048 }
      [(7, ⟨3, 4, none, true, none, none⟩)] 7 ⟨3, 4, none, true, none, none⟩
      (by decide) rfl).1,
    (batch_replaces_records
      { players := [], avatars := [], myPlayerId := none, viewportX := 0, viewportY := 0,
        playerRenderState := [], canvasW := 800, canvasH := 600,
        worldWidth := 2048, worldHeight := 2048 }
      [(7, ⟨3, 4, none, true, none, none⟩)] 7 ⟨3, 4, none, true, none, none⟩
      (by decide) rfl).2 rfl⟩

/-- The head of a filtered list is an element of the original list that
satisfies the predicate and occurs no later than any other such element. -/
theorem filter_head_first {l : List Dir} {p : Dir → Bool} {nd : Dir}
    (h : (l.filter p).head? = some nd) :
    nd ∈ l ∧ p nd = true ∧ ∀ e ∈ l, p e = true → l.indexOf nd ≤ l.indexOf e := by
  induction l with
  | nil => simp at h
  | cons a tl ih =>
    by_cases hpa : p a
    · rw [List.filter_cons_of_pos hpa] at h
      simp only [List.head?_cons, Option.some.injEq] at h
      subst h
      refine ⟨List.mem_cons_self _ _, hpa, ?_⟩
      intro e he hpe
      rw [List.indexOf_cons_self]
      exact Nat.zero_le _
    · rw [List.filter_cons_of_neg (by simpa using hpa)] at h
      obtain ⟨h1, h2, h3⟩ := ih h
      have hne : a ≠ nd := fun he => hpa (by rw [he]; exact h2)
      refine ⟨List.mem_cons_of_mem _ h1, h2, ?_⟩
      intro e he hpe
      rcases List.mem_cons.mp he with rfl | he'
      · exact absurd hpe hpa
      · have hnea : a ≠ e := fun hae => hpa (by rw [hae]; exact hpe)
        rw [List.indexOf_cons_ne _ hne, List.indexOf_cons_ne _ hnea]
        exact Nat.succ_le_succ (h3 e he' hpe)

/-- C5: releasing a held direction while others remain held emits exactly one
move intent for the front of the post-release recency list — the most
recently pressed direction still held — and updates local presentation to it;
releasing the last held direction emits exactly one stop intent and clears
local movement presentation. -/
theorem release_tiebreak (s : InputState) (d : Dir) (hwf : InputWF s)
    (hd : d ∈ s.heldOrder) :
    ((∃ e, e ∈ s.heldOrder ∧ e ≠ d) →
      ∃ nd, (s.heldOrder.filter (fun x => x ≠ d)).head? = some nd ∧
        (onKeyUp s d).sent = [Intent.move nd] ∧
        (onKeyUp s d).localMove = some (some nd, true) ∧
        nd ∈ s.heldOrder ∧ nd ≠ d ∧
        (∀ e ∈ s.heldOrder, e ≠ d → s.heldOrder.indexOf nd ≤ s.heldOrder.indexOf e)) ∧
    ((∀ e ∈ s.heldOrder, e = d) →
      (onKeyUp s d).sent = [Intent.stop] ∧
        (onKeyUp s d).localMove = some (none, false)) := by
  obtain ⟨hnp, hnh, hiff⟩ := hwf
  have hdp : d ∈ s.pressedDirections := (hiff d).mpr hd
  have hcon : s.pressedDirections.contains d = true := List.elem_eq_true_of_mem hdp
  constructor
  · rintro ⟨e0, he0, hne0⟩
    have hmem_f : e0 ∈ s.heldOrder.filter (fun x => x ≠ d) :=
      List.mem_filter.mpr ⟨he0, by simpa using hne0⟩
    obtain ⟨nd, hnd⟩ : ∃ nd, (s.heldOrder.filter (fun x => x ≠ d)).head? = some nd := by
      cases hl : s.heldOrder.filter (fun x => x ≠ d) with
      | nil => rw [hl] at hmem_f; simp at hmem_f
      | cons a tl => exact ⟨a, rfl⟩
    obtain ⟨hnd_mem, hnd_p, hnd_min⟩ := filter_head_first hnd
    have hpe : e0 ∈ s.pressedDirections.filter (fun x => x ≠ d) :=
      List.mem_filter.mpr ⟨(hiff e0).mpr he0, by simpa using hne0⟩
    have hpne : (s.pressedDirections.filter (fun x => x ≠ d)).isEmpty = false := by
      cases hl : s.pressedDirections.filter (fun x => x ≠ d) with
      | nil => rw [hl] at hpe; simp at hpe
      | cons a tl => rfl
    have hsent : (onKeyUp s d).sent = [Intent.move nd] := by
      simp only [onKeyUp, hcon, if_true, hpne, hnd]
      rw [if_neg Bool.false_ne_true]
    have hloc : (onKeyUp s d).localMove = some (some nd, true) := by
      simp only [onKeyUp, hcon, if_true, hpne, hnd]
      rw [if_neg Bool.false_ne_true]
    exact ⟨nd, hnd, hsent, hloc, hnd_mem, by simpa using hnd_p,
      fun e he hne => hnd_min e he (by simpa using hne)⟩
  · intro hall
    have hfilter_h : s.heldOrder.filter (fun x => x ≠ d) = [] :=
      List.filter_eq_nil_iff.mpr (fun a ha => by simp [hall a ha])
    have hfilter_p : s.pressedDirections.filter (fun x => x ≠ d) = [] :=
      List.filter_eq_nil_iff.mpr (fun a ha => by simp [hall a ((hiff a).mp ha)])
    constructor
    · simp only [onKeyUp, hcon, if_true, hfilter_p, List.isEmpty_nil]
    · simp only [onKeyUp, hcon, if_true, hfilter_p, List.isEmpty_nil]

theorem release_tiebreak_witness :
    (onKeyUp ⟨[Dir.up, Dir.down], [Dir.down, Dir.up]⟩ Dir.down).sent
        = [Intent.move Dir.up] ∧
    (onKeyUp ⟨[Dir.up, Dir.down], [Dir.down, Dir.up]⟩ Dir.down).localMove
        = some (some Dir.up, true) ∧
    (onKeyUp ⟨[Dir.up], [Dir.up]⟩ Dir.up).sent = [Intent.stop] ∧
    (onKeyUp ⟨[Dir.up], [Dir.up]⟩ Dir.up).localMove = some (none, false) := by
  obtain ⟨nd, hhead, hsent, hloc, _⟩ :=
    (release_tiebreak ⟨[Dir.up, Dir.down], [Dir.down, Dir.up]⟩ Dir.down
      (by decide) (by decide)).1 ⟨Dir.up, by decide, by decide⟩
  have hup : (([Dir.down, Dir.up] : List Dir).filter (fun x => x ≠ Dir.down)).head?
      = some Dir.up := by decide
  rw [hup] at hhead
  cases Option.some.inj hhead
  have hstop := (release_tiebreak ⟨[Dir.up], [Dir.up]⟩ Dir.up
    (by decide) (by decide)).2 (by decide)
  exact ⟨hsent, hloc, hstop.1, hstop.2⟩
